import Mathlib

/-!
Verification development for the qc-bridge sync core (src/index.mjs).

The JavaScript source is shallowly embedded: every definition below mirrors a
function of src/index.mjs (line references in the doc comments).  JavaScript
strings are Lean `String`s; the handful of string primitives the source uses
(`trim`, `toLowerCase`, `includes`) are re-implemented over `List Char` so that
all definitions reduce in the kernel.  `null`/`undefined` is `Option.none`, and
JavaScript truthiness of a string value (empty string is falsy) is made explicit
via `jsOrNull`.  The SHA-256 digest of `calculateHash` is modelled by the
fixed-order record of normalized fields that the source serializes and feeds to
the hash: SHA-256 is a deterministic function of that serialization, so digest
equality is faithfully modelled by equality of the serialized content.
-/

namespace QCBridge

/-- JavaScript whitespace as used by `String.prototype.trim` (restricted to the
characters that can occur in this data set). -/
def isJsWhitespace (c : Char) : Bool :=
  c == ' ' || c == '\t' || c == '\n' || c == '\r'

/-- Single-character lower casing as performed by `String.prototype.toLowerCase`,
covering ASCII and the Latin-1/Latin-Extended letters that occur in the
source's (mojibake) literals. -/
def jsCharToLower (c : Char) : Char :=
  if 65 ≤ c.toNat && c.toNat ≤ 90 then Char.ofNat (c.toNat + 32)
  else if 0xC0 ≤ c.toNat && c.toNat ≤ 0xDE && c.toNat ≠ 0xD7 then Char.ofNat (c.toNat + 32)
  else if c.toNat = 0x178 then 'ÿ'
  else c

/-- Model of `String.prototype.toLowerCase`. -/
def jsToLower (s : String) : String :=
  String.mk (s.toList.map jsCharToLower)

/-- Drop leading and trailing whitespace from a character list. -/
def trimChars (l : List Char) : List Char :=
  ((l.dropWhile isJsWhitespace).reverse.dropWhile isJsWhitespace).reverse

/-- Model of `String.prototype.trim`. -/
def jsTrim (s : String) : String :=
  String.mk (trimChars s.toList)

/-- Character-list version of "starts with". -/
def isPrefixOfChars : List Char → List Char → Bool
  | [], _ => true
  | _ :: _, [] => false
  | c :: cs, t :: ts => c == t && isPrefixOfChars cs ts

/-- Character-list version of "occurs as a contiguous substring". -/
def isInfixOfChars : List Char → List Char → Bool
  | needle, [] => needle.isEmpty
  | needle, t :: ts => isPrefixOfChars needle (t :: ts) || isInfixOfChars needle ts

/-- Model of `haystack.includes(needle)` on JavaScript strings. -/
def jsIncludes (haystack needle : String) : Bool :=
  isInfixOfChars needle.toList haystack.toList

/-- Model of the JavaScript idiom `x || null` on an optional string: the empty
string is falsy and collapses to null. -/
def jsOrNull : Option String → Option String
  | some s => if s = "" then none else some s
  | none => none

/-- Membership in the regex class
`[\p\x7bEmoji_Presentation\x7d\p\x7bExtended_Pictographic\x7d\p\x7bEmoji\x7d\s]` used by
src/index.mjs:168/210 to strip leading emoji.  The Unicode property classes are
modelled by the code-point ranges they cover for the symbols this database
uses (note that `\p\x7bEmoji\x7d` also contains the ASCII digits, `#` and `*`). -/
def isEmojiOrSpaceChar (c : Char) : Bool :=
  isJsWhitespace c || c == '#' || c == '*' ||
  (0x30 ≤ c.toNat && c.toNat ≤ 0x39) ||
  c.toNat == 0xA9 || c.toNat == 0xAE || c.toNat == 0x203C || c.toNat == 0x2049 ||
  c.toNat == 0x2122 || c.toNat == 0x200D || c.toNat == 0xFE0F ||
  (0x2190 ≤ c.toNat && c.toNat ≤ 0x21FF) ||
  (0x2300 ≤ c.toNat && c.toNat ≤ 0x23FF) ||
  (0x25A0 ≤ c.toNat && c.toNat ≤ 0x27BF) ||
  (0x2B00 ≤ c.toNat && c.toNat ≤ 0x2BFF) ||
  (0x1F000 ≤ c.toNat && c.toNat ≤ 0x1FAFF)

/-- Model of `s.replace(/^[emoji-class]+/u, '')`: remove the leading run of
emoji/whitespace characters. -/
def stripEmojiRun (s : String) : String :=
  String.mk (s.toList.dropWhile isEmojiOrSpaceChar)

/-- Helper (src/index.mjs:236-245 `mapPriority`): normalize a priority label to
P0..P3; null/empty input maps to null; unrecognized non-empty input falls back
to P2.  The three non-ASCII needles are the source's mojibake literals,
reproduced code point for code point. -/
def mapPriority (val : Option String) : Option String :=
  match val with
  | none => none
  | some s =>
    if s = "" then none
    else
      let v := jsToLower (jsTrim s)
      if jsIncludes v "p0" || jsIncludes v "urgent" then some "P0"
      else if jsIncludes v "p1" || jsIncludes v "high" ||
              jsIncludes v "ðŸ”¥" then some "P1"
      else if jsIncludes v "p2" || jsIncludes v "medium" ||
              jsIncludes v "ðŸŸ¡" then some "P2"
      else if jsIncludes v "p3" || jsIncludes v "low" ||
              jsIncludes v "ðŸŸ¢" then some "P3"
      else some "P2"

/-- The character class of the mojibake regex at src/index.mjs:253, reproduced
code point for code point. -/
def statusEmojiMojibake : List Char :=
  ['ð', 'Ÿ', '“', '”', '„', 'â', 'œ',
   '…', '¸', 'ï']

/-- Helper (src/index.mjs:248-269 `mapStatus`): normalize a status label to one
of "To Do", "In Progress", "Done", "On Hold"; null/empty input maps to null;
unrecognized non-empty input falls back to "To Do". -/
def mapStatus (notionValue : Option String) : Option String :=
  match notionValue with
  | none => none
  | some s =>
    if s = "" then none
    else
      let value := jsTrim s
      let lower := jsToLower value
      if value.toList.any (fun c => statusEmojiMojibake.contains c) then
        if jsIncludes value "On Hold" then some "On Hold"
        else if jsIncludes value "In Progress" then some "In Progress"
        else if jsIncludes value "Done" || jsIncludes value "Complete" then some "Done"
        else some "To Do"
      else if jsIncludes lower "hold" then some "On Hold"
      else if jsIncludes lower "progress" then some "In Progress"
      else if jsIncludes lower "done" || jsIncludes lower "complete" then some "Done"
      else if jsIncludes lower "to do" || lower = "todo" || lower = "to-do" then some "To Do"
      else some "To Do"

/-- The variant-to-canonical map of src/index.mjs:170-178. -/
def hashSlotMapping : List (String × String) :=
  [("morning routine", "Morning Routine"),
   ("deep work block 1", "Deep Work Block 1"),
   ("admin block 1", "Admin Block 1"),
   ("recharge & rest", "Recharge & Rest"),
   ("deep work block 2", "Deep Work Block 2"),
   ("admin block 2", "Admin Block 2"),
   ("shutdown routine", "Shutdown Routine")]

/-- Helper (src/index.mjs:166-181 `normalizeFocusSlotForHash`): synchronous
focus-slot normalization used only for hashing.  `mapping[key] || stripped`
is rendered faithfully, including the falsy check on the mapping hit. -/
def normalizeFocusSlotForHash (val : String) : String :=
  if val = "" then ""
  else
    let stripped := jsTrim (stripEmojiRun val)
    let key := jsToLower stripped
    match hashSlotMapping.find? (fun kv => kv.1 = key) with
    | some kv => if kv.2 = "" then stripped else kv.2
    | none => stripped

/-- The hard-coded fallback list of src/index.mjs:227, identical to the seed
content of the `focus_slots` table (src/sql/create_focus_slots.sql). -/
def fallbackSlots : List String :=
  ["Morning Routine", "Deep Work Block 1", "Admin Block 1", "Recharge & Rest",
   "Deep Work Block 2", "Admin Block 2", "Shutdown Routine"]

/-- Split a character list at every `%`, keeping (possibly empty) segments. -/
def splitOnPercent : List Char → List (List Char)
  | [] => [[]]
  | c :: cs =>
    let rest := splitOnPercent cs
    if c == '%' then [] :: rest
    else
      match rest with
      | [] => [[c]]
      | seg :: segs => (c :: seg) :: segs

/-- Does a LIKE segment (where `_` matches any single character) match at the
front of the target? -/
def segMatchesFront : List Char → List Char → Bool
  | [], _ => true
  | _ :: _, [] => false
  | p :: ps, t :: ts => (p == '_' || p == t) && segMatchesFront ps ts

/-- Find the leftmost match of a LIKE segment in the target; return the target
remainder after the match. -/
def segFind (seg : List Char) : List Char → Option (List Char)
  | [] => if segMatchesFront seg [] then some [] else none
  | t :: ts =>
    if segMatchesFront seg (t :: ts) then some ((t :: ts).drop seg.length)
    else segFind seg ts

/-- Match the `%`-separated segments of a LIKE pattern in order, each one
anywhere to the right of the previous (leftmost-first, which is complete for
this scattered-substring problem). -/
def likeScatter : List (List Char) → List Char → Bool
  | [], _ => true
  | seg :: segs, t =>
    match segFind seg t with
    | none => false
    | some t2 => likeScatter segs t2

/-- Model of the PostgREST query `.ilike('slot', stripped-interpolated)` issued at
src/index.mjs:214-217: the stripped text is interpolated raw between two `%`,
so `%` and `_` inside it act as SQL LIKE wildcards (the backslash escape of
PostgreSQL LIKE is not modelled; all theorems below exclude it explicitly).
Matching is case-insensitive. -/
def ilikeContains (slot stripped : String) : Bool :=
  likeScatter (splitOnPercent (jsToLower stripped).toList) (jsToLower slot).toList

/-- The emoji-stripped text computed at src/index.mjs:207-210:
`String(notionValue).trim()` followed by the leading-emoji replace and a trim. -/
def strippedOf (s : String) : String :=
  jsTrim (stripEmojiRun (jsTrim s))

/-- Result of focus-slot normalization: the canonical value (or null) and
whether the "Unknown focus slot value" warning of src/index.mjs:231 was logged. -/
structure FocusOutcome where
  result : Option String
  warned : Bool
deriving DecidableEq

/-- Helper (src/index.mjs:205-233 `mapFocusSlotAsync`): normalize a focus slot
against the `focus_slots` table (`focusDb = none` models a failed/failing DB
query, which the source swallows with `catch \x7b\x7d`), then against the hard-coded
fallback list; unmatched values map to null and log a warning. -/
def mapFocusSlotAsync (focusDb : Option (List String)) (notionValue : Option String) :
    FocusOutcome :=
  match notionValue with
  | none => ⟨none, false⟩
  | some s =>
    if s = "" then ⟨none, false⟩
    else
      let stripped := strippedOf s
      let dbHit : Option String :=
        match focusDb with
        | none => none
        | some slots =>
          match slots.filter (fun slot => ilikeContains slot stripped) with
          | [] => none
          | d :: ds =>
            match (d :: ds).find? (fun x => jsToLower x = jsToLower stripped) with
            | some exact => some exact
            | none => some d
      match dbHit with
      | some r => ⟨some r, false⟩
      | none =>
        match fallbackSlots.find? (fun f =>
            jsIncludes (jsToLower f) (jsToLower stripped) ||
            jsIncludes (jsToLower stripped) (jsToLower f)) with
        | some found => ⟨some found, false⟩
        | none => ⟨none, true⟩

/-- A fetched Notion page as the sync core reads it: the optional select/text
properties plus the two write-back fields (`Supabase Task ID`, `Linked`).
`lastEditedTime` is the page's `last_edited_time` in epoch milliseconds. -/
structure NotionPage where
  id : String
  lastEditedTime : Nat
  title : Option String
  domainName : Option String
  ventureName : Option String
  project : Option String
  milestone : Option String
  priorityName : Option String
  dueDate : Option String
  assignee : Option String
  statusName : Option String
  focusSlotName : Option String
  focusDate : Option String
  supabaseTaskId : Option String
  linked : Bool
deriving DecidableEq

/-- The extracted/normalized property record of src/index.mjs:272-294
(`extractProperties`). -/
structure ExtractedProps where
  title : String
  domain : Option String
  venture : Option String
  area : Option String
  project : Option String
  milestone : Option String
  priority : Option String
  dueDate : Option String
  assignee : Option String
  status : Option String
  focusSlot : Option String
  focusDate : Option String
  supabaseTaskId : Option String
  linked : Bool
deriving DecidableEq

/-- Model of src/index.mjs:272-294 `extractProperties`.  Optional chaining plus
`|| null` is `jsOrNull`; `focusSlot` stays raw (the async normalization runs
later, during task creation). -/
def extractProperties (page : NotionPage) : ExtractedProps :=
  { title := (jsOrNull page.title).getD "Untitled"
    domain := jsOrNull (page.domainName.map jsToLower)
    venture := jsOrNull (page.ventureName.map jsToLower)
    area :=
      match jsOrNull (page.ventureName.map jsToLower) with
      | some v => some v
      | none => jsOrNull (page.domainName.map jsToLower)
    project := jsOrNull page.project
    milestone := jsOrNull page.milestone
    priority := mapPriority (jsOrNull page.priorityName)
    dueDate := jsOrNull page.dueDate
    assignee := jsOrNull page.assignee
    status := mapStatus (jsOrNull page.statusName)
    focusSlot := jsOrNull page.focusSlotName
    focusDate := jsOrNull page.focusDate
    supabaseTaskId := jsOrNull page.supabaseTaskId
    linked := page.linked }

/-- The fixed-order record of normalized fields that src/index.mjs:184-202
serializes (`JSON.stringify`) and digests with SHA-256.  Digest equality is
modelled by equality of this record (the serialization is injective on it and
SHA-256 is deterministic). -/
structure RelevantFields where
  title : String
  domain : String
  venture : String
  project : String
  milestone : String
  priority : String
  due : String
  assignee : String
  status : String
  focusSlot : String
  focusDate : String
deriving DecidableEq

/-- Model of src/index.mjs:184-202 `calculateHash`.  Each `|| two-quotes`
default on an optional property is `Option.getD` with the empty string; the
trailing `|| two-quotes` on `normalizeFocusSlotForHash` is the identity (the
function already returns a string). -/
def calculateHash (page : NotionPage) : RelevantFields :=
  let rawFocusSlot := page.focusSlotName.getD ""
  let rawStatus := page.statusName.getD ""
  let rawPriority := page.priorityName.getD ""
  { title := page.title.getD ""
    domain := (page.domainName.map jsToLower).getD ""
    venture := (page.ventureName.map jsToLower).getD ""
    project := page.project.getD ""
    milestone := page.milestone.getD ""
    priority := (mapPriority (some rawPriority)).getD ""
    due := page.dueDate.getD ""
    assignee := page.assignee.getD ""
    status := (mapStatus (some rawStatus)).getD ""
    focusSlot := normalizeFocusSlotForHash rawFocusSlot
    focusDate := page.focusDate.getD "" }

/-- A JavaScript error value as inspected by the retry wrapper: an optional
HTTP `status`, an optional `code`, and a message. -/
structure JsError where
  status : Option Nat
  code : Option String
  message : String
deriving DecidableEq

/-- The retryable-error predicate of src/index.mjs:110-114.  In JavaScript
`error.status >= 500` is false when `status` is undefined, hence the `none`
case. -/
def isRetryableError (e : JsError) : Bool :=
  e.status == some 429 ||
  (match e.status with
   | some s => decide (500 ≤ s)
   | none => false) ||
  e.code == some "ECONNRESET" ||
  e.code == some "ETIMEDOUT"

/-- The loop body of src/index.mjs:100-135 `retryWithBackoff`.  `fn i` is the
outcome of the i-th invocation of the wrapped operation; `remaining` counts the
loop iterations still allowed (`maxAttempts + 1 - attempt`), making the
recursion structural.  The result pairs the number of invocations actually made
with the final outcome; `Except.ok none` is the `undefined` returned when the
loop is never entered (`maxAttempts = 0`). -/
def retryGo {α : Type} (fn : Nat → Except JsError α) (maxAttempts : Nat) :
    Nat → Nat → Nat × Except JsError (Option α)
  | _, 0 => (0, Except.ok none)
  | attempt, _remaining + 1 =>
    match fn attempt with
    | Except.ok a => (1, Except.ok (some a))
    | Except.error e =>
      if !isRetryableError e || attempt == maxAttempts then (1, Except.error e)
      else
        let r := retryGo fn maxAttempts (attempt + 1) _remaining
        (r.1 + 1, r.2)

/-- Model of src/index.mjs:100-135 `retryWithBackoff`: run the operation from
attempt 1, retrying retryable failures up to `maxAttempts` invocations. -/
def retryWithBackoff {α : Type} (fn : Nat → Except JsError α) (maxAttempts : Nat) :
    Nat × Except JsError (Option α) :=
  retryGo fn maxAttempts 1 maxAttempts

/-- Classification of one page's processing, mirroring the `reason` strings of
src/index.mjs:527-621 plus the silent fall-through after a failed or id-less
upsert. -/
inductive PageOutcome where
  | skippedMissingDomain
  | skippedMissingVenture
  | skippedMissingPriority
  | skippedAlreadySynced
  | createdTask (taskId : String)
  | upsertFailed
  | upsertReturnedNoId
  | pageError
deriving DecidableEq

/-- Outcomes of the external services consulted while processing one page:
the `create_or_update_task` RPC result (if the RPC is invoked), the
`focus_slots` table content (none = query error), and whether the Notion
link-back write succeeds (if attempted). -/
structure PageEnv where
  rpc : Except JsError String
  focusDb : Option (List String)
  notionWriteOk : Bool

/-- Effects and counter increments of processing one page.  `newIntegration`
is the `integrations_notion` hash store after the page (keyed by Notion page
id); `newPage` is the source page after any link-back write. -/
structure PageResult where
  outcome : PageOutcome
  createdInc : Nat
  skippedInc : Nat
  errorsInc : Nat
  upsertCalls : Nat
  notionWrites : Nat
  integrationWrites : Nat
  newIntegration : String → Option RelevantFields
  newPage : NotionPage

/-- The post-upsert handling of src/index.mjs:576-607: on a truthy `task_id`,
update the `integrations_notion` hash (the row exists after a successful
gateway call: the stored procedure upserts it, src/sql/create_enhanced_rpc.sql
lines 140-149, and src/index.mjs:579-589 then writes the fresh hash), then
write the task id and `Linked` flag back to the Notion page; a link-back
failure (after retries) is caught by the per-page handler and counted as an
error, with the integration hash already written.  In dry-run mode both writes
are skipped and the page is still counted as created. -/
def finishSuccess (dryRun : Bool) (integ : String → Option RelevantFields)
    (page : NotionPage) (hash : RelevantFields) (tid : String) (rpcCalls : Nat)
    (env : PageEnv) : PageResult :=
  if dryRun then
    ⟨PageOutcome.createdTask tid, 1, 0, 0, rpcCalls, 0, 0, integ, page⟩
  else
    let integNew := fun pid => if pid = page.id then some hash else integ pid
    if env.notionWriteOk then
      ⟨PageOutcome.createdTask tid, 1, 0, 0, rpcCalls, 1, 1, integNew,
       { page with supabaseTaskId := some tid, linked := true }⟩
    else
      ⟨PageOutcome.pageError, 0, 0, 1, rpcCalls, 0, 1, integNew, page⟩

/-- Model of src/index.mjs:376-425 `createTaskInSupabase` combined with the
caller's `if (result?.task_id)` check (src/index.mjs:576).  In dry-run mode the
function returns `task_id: 'dry-run-id'` without invoking the RPC.  On an RPC
error the function catches it and returns `metrics.failOperation`'s error
record — an object with no `task_id` — so the caller's guard is falsy and the
page is silently neither counted nor link-backed (`PageOutcome.upsertFailed`). -/
def processCreate (dryRun : Bool) (integ : String → Option RelevantFields)
    (page : NotionPage) (env : PageEnv) (hash : RelevantFields) : PageResult :=
  let _slot := mapFocusSlotAsync env.focusDb (extractProperties page).focusSlot
  if dryRun then
    finishSuccess true integ page hash "dry-run-id" 0 env
  else
    match env.rpc with
    | Except.error _ => ⟨PageOutcome.upsertFailed, 0, 0, 0, 1, 0, 0, integ, page⟩
    | Except.ok tid =>
      if tid = "" then ⟨PageOutcome.upsertReturnedNoId, 0, 0, 0, 1, 0, 0, integ, page⟩
      else finishSuccess false integ page hash tid 1 env

/-- The per-page loop body of src/index.mjs:507-621: extract and hash, apply the
required-field gate (domain, venture, priority), apply the unchanged-skip gate
(`props.linked && props.supabaseTaskId` with `needsSync`, src/index.mjs:450-461
and 560-568), otherwise create/update the task. -/
def processPage (dryRun : Bool) (integ : String → Option RelevantFields)
    (page : NotionPage) (env : PageEnv) : PageResult :=
  let props := extractProperties page
  let hash := calculateHash page
  if props.domain = none then
    ⟨PageOutcome.skippedMissingDomain, 0, 1, 0, 0, 0, 0, integ, page⟩
  else if props.venture = none then
    ⟨PageOutcome.skippedMissingVenture, 0, 1, 0, 0, 0, 0, integ, page⟩
  else if props.priority = none then
    ⟨PageOutcome.skippedMissingPriority, 0, 1, 0, 0, 0, 0, integ, page⟩
  else if props.linked && props.supabaseTaskId.isSome then
    match integ page.id with
    | some storedHash =>
      if storedHash = hash then
        ⟨PageOutcome.skippedAlreadySynced, 0, 1, 0, 0, 0, 0, integ, page⟩
      else processCreate dryRun integ page env hash
    | none => processCreate dryRun integ page env hash
  else processCreate dryRun integ page env hash

/-- Aggregated result of one sync pass: the three counters of
src/index.mjs:476, the external-mutation counts, and the cursor values written
by `setCursor`. -/
structure SyncTotals where
  created : Nat
  skipped : Nat
  errors : Nat
  upsertCalls : Nat
  notionWrites : Nat
  integrationWrites : Nat
  cursorWrites : List Nat
  finalIntegration : String → Option RelevantFields

/-- The page loop of src/index.mjs:507-622: process the fetched pages in order,
threading the integration store; each page's environment outcome is supplied
alongside it. -/
def runPages (dryRun : Bool) (integ : String → Option RelevantFields) :
    List (NotionPage × PageEnv) → SyncTotals
  | [] => ⟨0, 0, 0, 0, 0, 0, [], integ⟩
  | (page, env) :: rest =>
    let r := processPage dryRun integ page env
    let acc := runPages dryRun r.newIntegration rest
    ⟨r.createdInc + acc.created, r.skippedInc + acc.skipped, r.errorsInc + acc.errors,
     r.upsertCalls + acc.upsertCalls, r.notionWrites + acc.notionWrites,
     r.integrationWrites + acc.integrationWrites, acc.cursorWrites, acc.finalIntegration⟩

/-- The cursor value computed at src/index.mjs:627-629: the fold of
`Math.max` over the pages' `last_edited_time` values with initial value 0. -/
def maxLastEdited (items : List (NotionPage × PageEnv)) : Nat :=
  (items.map (fun pe => pe.1.lastEditedTime)).foldl Nat.max 0

/-- Model of src/index.mjs:464-668 `syncPages`: an empty fetch returns
immediately with zero counters and no cursor write (src/index.mjs:490-496);
otherwise the pages are processed and, when at least one page was fetched and
dry-run mode is off, the cursor is set to the maximum `last_edited_time` over
all fetched pages (src/index.mjs:624-631). -/
def syncPages (dryRun : Bool) (integ : String → Option RelevantFields)
    (items : List (NotionPage × PageEnv)) : SyncTotals :=
  match items with
  | [] => ⟨0, 0, 0, 0, 0, 0, [], integ⟩
  | _ :: _ =>
    let acc := runPages dryRun integ items
    if dryRun then acc
    else { acc with cursorWrites := [maxLastEdited items] }

/-- An `integrations_notion` store with no rows. -/
def noIntegrationRows : String → Option RelevantFields := fun _ => none

/-- A fully populated page that passes the required-field gate and is not yet
linked. -/
def pageFresh : NotionPage :=
  { id := "page-a", lastEditedTime := 100, title := some "Ship report",
    domainName := some "Health", ventureName := some "Wellness",
    project := none, milestone := none, priorityName := some "P1",
    dueDate := none, assignee := none, statusName := some "In Progress",
    focusSlotName := none, focusDate := none, supabaseTaskId := none,
    linked := false }

/-- A second fresh page, used to observe that processing continues after a
failed record. -/
def pageSecond : NotionPage :=
  { pageFresh with id := "page-b", lastEditedTime := 200 }

/-- Environment in which the `create_or_update_task` RPC fails with an HTTP
500 error. -/
def envRpcError : PageEnv :=
  ⟨Except.error ⟨some 500, none, "RPC call failed"⟩, none, true⟩

/-- Environment in which the RPC succeeds, returning task id "task-1". -/
def envRpcOk : PageEnv := ⟨Except.ok "task-1", none, true⟩

/-- A linked page with a stored task id whose Domain select is empty: it
satisfies the unchanged-skip premises but fails the required-field gate. -/
def pageLinkedNoDomain : NotionPage :=
  { pageFresh with
    id := "page-c"
    domainName := none
    supabaseTaskId := some "task-9"
    linked := true }

/-- Integration store holding exactly the fresh content hash of
`pageLinkedNoDomain`. -/
def integLinkedNoDomain : String → Option RelevantFields :=
  fun pid => if pid = "page-c" then some (calculateHash pageLinkedNoDomain) else none

/-- Presentation variant A of the spec's example record: emoji-decorated
priority, status and focus slot. -/
def pageEmojiVariant : NotionPage :=
  { id := "page-h", lastEditedTime := 300, title := some "Ship report",
    domainName := some "Health", ventureName := some "Wellness",
    project := some "Q4", milestone := none, priorityName := some "🔴 P1",
    dueDate := some "2025-01-01", assignee := none,
    statusName := some "🔄 In Progress",
    focusSlotName := some "🎯 Deep Work Block 1", focusDate := none,
    supabaseTaskId := none, linked := false }

/-- Presentation variant B: the same record with plain-text field values that
normalize to the same canonical values. -/
def pageTextVariant : NotionPage :=
  { pageEmojiVariant with
    priorityName := some "high"
    statusName := some "In Progress"
    focusSlotName := some "Deep Work Block 1" }

/-- A page whose Priority select is empty. -/
def pageNoPriority : NotionPage :=
  { pageFresh with id := "page-d", priorityName := none }

/-- Boolean form of "the text matches no entry of the canonical list, neither
exactly nor as a case-insensitive substring in either direction" — the
hypothesis of the focus-slot drift claim, over a concrete list. -/
def noSlotMatch (slots : List String) (stripped : String) : Bool :=
  slots.all (fun t =>
    !jsIncludes (jsToLower t) (jsToLower stripped) &&
    !jsIncludes (jsToLower stripped) (jsToLower t) &&
    !(jsToLower t == jsToLower stripped))

/-- Boolean form of "the text contains no SQL LIKE metacharacter". -/
def noLikeWildcards (s : String) : Bool :=
  s.toList.all (fun c => !(c == '%' || c == '_' || c == '\\'))

/-- An operation that fails with HTTP 503 (retryable) on every invocation. -/
def rpcAlwaysServerError : Nat → Except JsError Nat :=
  fun _ => Except.error ⟨some 503, none, "server"⟩

/-- An operation that fails with HTTP 400 (non-retryable) on every invocation. -/
def rpcBadRequest : Nat → Except JsError Nat :=
  fun _ => Except.error ⟨some 400, none, "bad request"⟩

theorem mapStatus_total (v : Option String) :
    mapStatus v = none ∨
    mapStatus v ∈ [some "To Do", some "In Progress", some "Done", some "On Hold"] := by
  cases v with
  | none => exact Or.inl rfl
  | some s =>
    by_cases hs : s = ""
    · exact Or.inl (by simp [mapStatus, hs])
    · right
      simp only [mapStatus, hs, if_false]
      repeat' split
      all_goals simp

theorem mapPriority_total (v : Option String) :
    mapPriority v = none ∨
    mapPriority v ∈ [some "P0", some "P1", some "P2", some "P3"] := by
  cases v with
  | none => exact Or.inl rfl
  | some s =>
    by_cases hs : s = ""
    · exact Or.inl (by simp [mapPriority, hs])
    · right
      simp only [mapPriority, hs, if_false]
      repeat' split
      all_goals simp

theorem mapPriority_nonempty_isSome (s : String) (hs : s ≠ "") :
    (mapPriority (some s)).isSome = true := by
  simp only [mapPriority, hs, if_false]
  repeat' split
  all_goals simp

theorem mapStatus_nonempty_isSome (s : String) (hs : s ≠ "") :
    (mapStatus (some s)).isSome = true := by
  simp only [mapStatus, hs, if_false]
  repeat' split
  all_goals simp

theorem mapFocusSlotAsync_total (focusDb : Option (List String)) (v : Option String) :
    (mapFocusSlotAsync focusDb v).result = none ∨
    ∃ s, s ∈ focusDb.getD [] ++ fallbackSlots ∧ (mapFocusSlotAsync focusDb v).result = some s := by
  cases v with
  | none => exact Or.inl rfl
  | some s =>
    by_cases hs : s = ""
    · left
      simp [mapFocusSlotAsync, hs]
    · simp only [mapFocusSlotAsync, hs, if_false]
      cases focusDb with
      | none =>
        cases hfind : fallbackSlots.find? (fun f =>
            jsIncludes (jsToLower f) (jsToLower (strippedOf s)) ||
            jsIncludes (jsToLower (strippedOf s)) (jsToLower f)) with
        | none => left; simp [hfind]
        | some found =>
          right
          refine ⟨found, ?_, by simp [hfind]⟩
          simp only [Option.getD, List.nil_append]
          exact List.mem_of_find?_eq_some hfind
      | some slots =>
        cases hfil : slots.filter (fun slot => ilikeContains slot (strippedOf s)) with
        | nil =>
          cases hfind : fallbackSlots.find? (fun f =>
              jsIncludes (jsToLower f) (jsToLower (strippedOf s)) ||
              jsIncludes (jsToLower (strippedOf s)) (jsToLower f)) with
          | none => left; simp [hfil, hfind]
          | some found =>
            right
            refine ⟨found, ?_, by simp [hfil, hfind]⟩
            exact List.mem_append_right _ (List.mem_of_find?_eq_some hfind)
        | cons d ds =>
          cases hex : (d :: ds).find? (fun x => jsToLower x = jsToLower (strippedOf s)) with
          | none =>
            right
            refine ⟨d, ?_, by simp [hfil, hex]⟩
            have hd : d ∈ slots.filter (fun slot => ilikeContains slot (strippedOf s)) := by
              rw [hfil]; exact List.mem_cons_self d ds
            exact List.mem_append_left _ (List.mem_of_mem_filter hd)
          | some exact1 =>
            right
            refine ⟨exact1, ?_, by simp [hfil, hex]⟩
            have hmem : exact1 ∈ d :: ds := List.mem_of_find?_eq_some hex
            have hd : exact1 ∈ slots.filter (fun slot => ilikeContains slot (strippedOf s)) := by
              rw [hfil]; exact hmem
            exact List.mem_append_left _ (List.mem_of_mem_filter hd)

theorem processPage_gate_skip (dryRun : Bool) (integ : String → Option RelevantFields)
    (page : NotionPage) (env : PageEnv)
    (h : (extractProperties page).domain = none ∨ (extractProperties page).venture = none ∨
         (extractProperties page).priority = none) :
    (processPage dryRun integ page env).upsertCalls = 0 ∧
    (processPage dryRun integ page env).notionWrites = 0 ∧
    (processPage dryRun integ page env).integrationWrites = 0 ∧
    (processPage dryRun integ page env).skippedInc = 1 ∧
    (processPage dryRun integ page env).errorsInc = 0 ∧
    (processPage dryRun integ page env).createdInc = 0 ∧
    ((processPage dryRun integ page env).outcome = PageOutcome.skippedMissingDomain ∨
     (processPage dryRun integ page env).outcome = PageOutcome.skippedMissingVenture ∨
     (processPage dryRun integ page env).outcome = PageOutcome.skippedMissingPriority) := by
  by_cases h1 : (extractProperties page).domain = none
  · simp [processPage, h1]
  · by_cases h2 : (extractProperties page).venture = none
    · simp [processPage, h1, h2]
    · have h3 : (extractProperties page).priority = none := by tauto
      simp [processPage, h1, h2, h3]

theorem processCreate_dryRun (integ : String → Option RelevantFields)
    (page : NotionPage) (env : PageEnv) (hash : RelevantFields) :
    processCreate true integ page env hash =
      ⟨PageOutcome.createdTask "dry-run-id", 1, 0, 0, 0, 0, 0, integ, page⟩ := by
  simp [processCreate, finishSuccess]

theorem processPage_dryRun_silent (integ : String → Option RelevantFields)
    (page : NotionPage) (env : PageEnv) :
    (processPage true integ page env).upsertCalls = 0 ∧
    (processPage true integ page env).notionWrites = 0 ∧
    (processPage true integ page env).integrationWrites = 0 := by
  unfold processPage
  by_cases h1 : (extractProperties page).domain = none
  · simp [h1]
  · by_cases h2 : (extractProperties page).venture = none
    · simp [h1, h2]
    · by_cases h3 : (extractProperties page).priority = none
      · simp [h1, h2, h3]
      · by_cases h4 : (extractProperties page).linked = true ∧
            (extractProperties page).supabaseTaskId.isSome = true
        · simp only [h1, h2, h3, h4, if_false, if_true, and_self]
          cases hI : integ page.id with
          | none => simp [hI, processCreate_dryRun]
          | some storedHash =>
            by_cases h5 : storedHash = calculateHash page
            · simp [hI, h5]
            · simp [hI, h5, processCreate_dryRun]
        · simp [h1, h2, h3, h4, processCreate_dryRun]

theorem runPages_dryRun_silent (items : List (NotionPage × PageEnv)) :
    ∀ integ, (runPages true integ items).upsertCalls = 0 ∧
      (runPages true integ items).notionWrites = 0 ∧
      (runPages true integ items).integrationWrites = 0 ∧
      (runPages true integ items).cursorWrites = [] := by
  induction items with
  | nil => intro integ; exact ⟨rfl, rfl, rfl, rfl⟩
  | cons pe rest ih =>
    intro integ
    obtain ⟨pg, env⟩ := pe
    have hp := processPage_dryRun_silent integ pg env
    have hr := ih (processPage true integ pg env).newIntegration
    simp [runPages, hp.1, hp.2.1, hp.2.2, hr.1, hr.2.1, hr.2.2.1, hr.2.2.2]

theorem runPages_cursorWrites (dryRun : Bool) (items : List (NotionPage × PageEnv)) :
    ∀ integ, (runPages dryRun integ items).cursorWrites = [] := by
  induction items with
  | nil => intro integ; rfl
  | cons pe rest ih =>
    intro integ
    obtain ⟨pg, env⟩ := pe
    simp [runPages, ih]

theorem foldl_max_le (l : List Nat) : ∀ a : Nat,
    a ≤ l.foldl Nat.max a ∧ ∀ x ∈ l, x ≤ l.foldl Nat.max a := by
  induction l with
  | nil => intro a; exact ⟨Nat.le_refl a, by simp⟩
  | cons x xs ih =>
    intro a
    have h := ih (Nat.max a x)
    constructor
    · exact Nat.le_trans (Nat.le_max_left a x) h.1
    · intro y hy
      rcases List.mem_cons.mp hy with rfl | hy2
      · exact Nat.le_trans (Nat.le_max_right a y) h.1
      · exact h.2 y hy2

theorem foldl_max_mem (l : List Nat) : ∀ a : Nat,
    l.foldl Nat.max a ∈ l ∨ l.foldl Nat.max a = a := by
  induction l with
  | nil => intro a; exact Or.inr rfl
  | cons x xs ih =>
    intro a
    rcases ih (Nat.max a x) with h | h
    · exact Or.inl (List.mem_cons_of_mem _ h)
    · rcases Nat.le_total a x with hle | hle
      · have hm : Nat.max a x = x := max_eq_right hle
        exact Or.inl (by
          rw [List.foldl_cons, h, hm]
          exact List.mem_cons_self _ _)
      · have hm : Nat.max a x = a := max_eq_left hle
        exact Or.inr (by rw [List.foldl_cons, h, hm])

theorem retryGo_allFail {α : Type} (fn : Nat → Except JsError α) (errs : Nat → JsError)
    (maxA : Nat) (hfn : ∀ i, fn i = Except.error (errs i))
    (hret : ∀ i, isRetryableError (errs i) = true) :
    ∀ rem attempt, attempt + rem = maxA →
      retryGo fn maxA attempt (rem + 1) = (rem + 1, Except.error (errs maxA)) := by
  intro rem
  induction rem with
  | zero =>
    intro attempt h
    have ha : attempt = maxA := by omega
    subst ha
    simp [retryGo, hfn attempt]
  | succ rem ih =>
    intro attempt h
    have hrec := ih (attempt + 1) (by omega)
    have hne : ¬(attempt = maxA) := by omega
    conv_lhs => rw [retryGo]
    simp [hfn attempt, hret attempt, hne, hrec]

theorem retryGo_haltNonRetryable {α : Type} (fn : Nat → Except JsError α)
    (errs : Nat → JsError) (maxA k : Nat) (e : JsError) (hk1 : 1 ≤ k) (hkm : k ≤ maxA)
    (hpre : ∀ i, 1 ≤ i → i < k → fn i = Except.error (errs i) ∧ isRetryableError (errs i) = true)
    (hfk : fn k = Except.error e) (hnr : isRetryableError e = false) :
    ∀ rem attempt, 1 ≤ attempt → attempt ≤ k → attempt + rem = maxA →
      retryGo fn maxA attempt (rem + 1) = (k - attempt + 1, Except.error e) := by
  intro rem
  induction rem with
  | zero =>
    intro attempt h1 hk hmax
    have ha : attempt = k := by omega
    subst ha
    have hsub : attempt - attempt = 0 := by omega
    simp [retryGo, hfk, hnr, hsub]
  | succ rem ih =>
    intro attempt h1 hk hmax
    by_cases hak : attempt = k
    · subst hak
      have hsub : attempt - attempt = 0 := by omega
      simp [retryGo, hfk, hnr, hsub]
    · have hlt : attempt < k := by omega
      have hp := hpre attempt h1 hlt
      have hne : ¬(attempt = maxA) := by omega
      have hrec := ih (attempt + 1) (by omega) (by omega) (by omega)
      have harith : k - (attempt + 1) + 1 + 1 = k - attempt + 1 := by omega
      conv_lhs => rw [retryGo]
      simp [hp.1, hp.2, hne, hrec, harith]

theorem processPage_skip_unchanged (dryRun : Bool) (integ : String → Option RelevantFields)
    (page : NotionPage) (env : PageEnv)
    (hd : (extractProperties page).domain ≠ none)
    (hv : (extractProperties page).venture ≠ none)
    (hp : (extractProperties page).priority ≠ none)
    (hl : (extractProperties page).linked = true)
    (hts : (extractProperties page).supabaseTaskId.isSome = true)
    (hh : integ page.id = some (calculateHash page)) :
    processPage dryRun integ page env =
      ⟨PageOutcome.skippedAlreadySynced, 0, 1, 0, 0, 0, 0, integ, page⟩ := by
  simp [processPage, hd, hv, hp, hl, hts, hh]

theorem processPage_fresh_success (integ : String → Option RelevantFields)
    (page : NotionPage) (env : PageEnv) (tid : String)
    (hd : (extractProperties page).domain ≠ none)
    (hv : (extractProperties page).venture ≠ none)
    (hp : (extractProperties page).priority ≠ none)
    (hnl : (extractProperties page).linked = false)
    (hrpc : env.rpc = Except.ok tid) (htid : tid ≠ "")
    (hwr : env.notionWriteOk = true) :
    processPage false integ page env =
      ⟨PageOutcome.createdTask tid, 1, 0, 0, 1, 1, 1,
       fun pid => if pid = page.id then some (calculateHash page) else integ pid,
       { page with supabaseTaskId := some tid, linked := true }⟩ := by
  simp [processPage, processCreate, finishSuccess, hd, hv, hp, hnl, hrpc, htid, hwr]

theorem splitOnPercent_no_percent : ∀ l : List Char, (∀ c ∈ l, ¬c = '%') →
    splitOnPercent l = [l] := by
  intro l
  induction l with
  | nil => intro _; rfl
  | cons c cs ih =>
    intro h
    have hc : (c == '%') = false := by
      simp only [beq_eq_false_iff_ne, ne_eq]
      exact h c (List.mem_cons_self _ _)
    have hrest := ih (fun x hx => h x (List.mem_cons_of_mem _ hx))
    simp [splitOnPercent, hc, hrest]

theorem segMatchesFront_no_underscore : ∀ (p t : List Char), (∀ c ∈ p, ¬c = '_') →
    segMatchesFront p t = isPrefixOfChars p t := by
  intro p
  induction p with
  | nil => intro t _; cases t <;> rfl
  | cons c cs ih =>
    intro t h
    cases t with
    | nil => rfl
    | cons a ts =>
      have hc : (c == '_') = false := by
        simp only [beq_eq_false_iff_ne, ne_eq]
        exact h c (List.mem_cons_self _ _)
      have hrest := ih ts (fun x hx => h x (List.mem_cons_of_mem _ hx))
      simp [segMatchesFront, isPrefixOfChars, hc, hrest]

theorem segFind_isSome_eq_isInfixOf : ∀ (t p : List Char), (∀ c ∈ p, ¬c = '_') →
    (segFind p t).isSome = isInfixOfChars p t := by
  intro t
  induction t with
  | nil =>
    intro p h
    cases p with
    | nil => rfl
    | cons c cs =>
      simp [segFind, segMatchesFront, isInfixOfChars]
  | cons a ts ih =>
    intro p h
    rw [segFind, isInfixOfChars, ← segMatchesFront_no_underscore p (a :: ts) h]
    cases hm : segMatchesFront p (a :: ts) with
    | true => simp
    | false => simp [ih p h]

theorem ilikeContains_no_wildcards (slot stripped : String)
    (hpct : ∀ c ∈ (jsToLower stripped).toList, ¬c = '%')
    (hund : ∀ c ∈ (jsToLower stripped).toList, ¬c = '_') :
    ilikeContains slot stripped = jsIncludes (jsToLower slot) (jsToLower stripped) := by
  unfold ilikeContains jsIncludes
  rw [splitOnPercent_no_percent _ hpct]
  rw [likeScatter]
  cases hf : segFind (jsToLower stripped).toList (jsToLower slot).toList with
  | none =>
    have := segFind_isSome_eq_isInfixOf (jsToLower slot).toList (jsToLower stripped).toList hund
    rw [hf] at this
    simp at this
    exact this.symm
  | some t2 =>
    have := segFind_isSome_eq_isInfixOf (jsToLower slot).toList (jsToLower stripped).toList hund
    rw [hf] at this
    simp at this
    simp [likeScatter, this.symm]

/-- C1: when a page passes the required-field and unchanged-skip gates and the
`create_or_update_task` RPC fails, the source does continue with the next
record, but the pass's error counter is NOT incremented: `createTaskInSupabase`
catches the RPC error internally (src/index.mjs:418-424) and returns
`metrics.failOperation`'s error record, which has no `task_id`, so
`syncPages` silently skips the post-success block and never reaches its
`catch` (the only place `errors++` runs, src/index.mjs:613-621).  Evaluated at
a concrete failing input: one RPC call is made, the outcome is the silent
`upsertFailed` fall-through, all three counters stay untouched for that record,
and a two-page pass with the first page failing still processes the second
page while reporting zero errors. -/
theorem c1_upsert_failure_error_count_unchanged :
    (processPage false noIntegrationRows pageFresh envRpcError).upsertCalls = 1 ∧
    (processPage false noIntegrationRows pageFresh envRpcError).outcome =
      PageOutcome.upsertFailed ∧
    (processPage false noIntegrationRows pageFresh envRpcError).errorsInc = 0 ∧
    (processPage false noIntegrationRows pageFresh envRpcError).createdInc = 0 ∧
    (processPage false noIntegrationRows pageFresh envRpcError).skippedInc = 0 ∧
    (syncPages false noIntegrationRows
      [(pageFresh, envRpcError), (pageSecond, envRpcOk)]).errors = 0 ∧
    (syncPages false noIntegrationRows
      [(pageFresh, envRpcError), (pageSecond, envRpcOk)]).created = 1 ∧
    (syncPages false noIntegrationRows
      [(pageFresh, envRpcError), (pageSecond, envRpcOk)]).upsertCalls = 2 := by
  refine ⟨?_, ?_, ?_, ?_, ?_, ?_, ?_, ?_⟩ <;> decide

/-- C2: two source records that are identical except for the presentation of
their status, priority and focus-slot values hash identically whenever those
values normalize to the same canonical value (via `mapStatus`, `mapPriority`
and `normalizeFocusSlotForHash`, exactly as `calculateHash` applies them). -/
theorem c2_hash_determinism (a b : NotionPage)
    (ht : a.title = b.title) (hd : a.domainName = b.domainName)
    (hv : a.ventureName = b.ventureName) (hp : a.project = b.project)
    (hm : a.milestone = b.milestone) (hdue : a.dueDate = b.dueDate)
    (hass : a.assignee = b.assignee) (hfd : a.focusDate = b.focusDate)
    (hpri : mapPriority (some (a.priorityName.getD "")) =
            mapPriority (some (b.priorityName.getD "")))
    (hst : mapStatus (some (a.statusName.getD "")) =
           mapStatus (some (b.statusName.getD "")))
    (hfs : normalizeFocusSlotForHash (a.focusSlotName.getD "") =
           normalizeFocusSlotForHash (b.focusSlotName.getD "")) :
    calculateHash a = calculateHash b := by
  simp only [calculateHash, ht, hd, hv, hp, hm, hdue, hass, hfd, hpri, hst, hfs]

/-- C2 witness: "🔴 P1" vs "high", "🔄 In Progress" vs "In Progress" and
"🎯 Deep Work Block 1" vs "Deep Work Block 1" normalize pairwise equal, and the
two records hash identically. -/
theorem c2_hash_determinism_witness :
    mapPriority (some "🔴 P1") = mapPriority (some "high") ∧
    mapStatus (some "🔄 In Progress") = mapStatus (some "In Progress") ∧
    normalizeFocusSlotForHash "🎯 Deep Work Block 1" =
      normalizeFocusSlotForHash "Deep Work Block 1" ∧
    calculateHash pageEmojiVariant = calculateHash pageTextVariant :=
  ⟨by decide, by decide, by decide,
   c2_hash_determinism pageEmojiVariant pageTextVariant rfl rfl rfl rfl rfl rfl rfl rfl
     (by decide) (by decide) (by decide)⟩

/-- C3 counterexample: a fetched page with `linked = true`, a non-empty stored
task id, and a stored link-table hash equal to the freshly computed hash, whose
Domain select is empty.  The claim says such a page is classified
skipped-unchanged; the code classifies it skipped-missing-domain instead, and
two passes over this unchanged record make zero upsert calls in total, not
exactly one. -/
theorem c3_skip_unchanged_counterexample :
    pageLinkedNoDomain.linked = true ∧
    (extractProperties pageLinkedNoDomain).supabaseTaskId = some "task-9" ∧
    integLinkedNoDomain pageLinkedNoDomain.id = some (calculateHash pageLinkedNoDomain) ∧
    (processPage false integLinkedNoDomain pageLinkedNoDomain envRpcOk).outcome =
      PageOutcome.skippedMissingDomain ∧
    ¬((processPage false integLinkedNoDomain pageLinkedNoDomain envRpcOk).outcome =
        PageOutcome.skippedAlreadySynced) ∧
    (processPage false integLinkedNoDomain pageLinkedNoDomain envRpcOk).upsertCalls +
      (processPage false
        (processPage false integLinkedNoDomain pageLinkedNoDomain envRpcOk).newIntegration
        (processPage false integLinkedNoDomain pageLinkedNoDomain envRpcOk).newPage
        envRpcOk).upsertCalls = 0 := by
  refine ⟨?_, ?_, ?_, ?_, ?_, ?_⟩ <;> decide

/-- C3 amended: for a fetched page that passes the required-field gate
(non-null normalized domain, venture and priority): (1) if its linked flag is
true, its stored task id is non-empty, and the stored link-table hash equals
the freshly computed hash, processing makes zero upsert calls and classifies
the page skipped-unchanged; (2) a fresh (unlinked) such record whose first-pass
upsert and link-back succeed is processed with exactly one upsert call, and the
second pass over the unchanged record makes zero upsert calls and classifies it
skipped-unchanged — one upsert call in total. -/
theorem c3_skip_unchanged_amended :
    (∀ (dryRun : Bool) (integ : String → Option RelevantFields) (page : NotionPage)
       (env : PageEnv),
       (extractProperties page).domain ≠ none →
       (extractProperties page).venture ≠ none →
       (extractProperties page).priority ≠ none →
       (extractProperties page).linked = true →
       (extractProperties page).supabaseTaskId.isSome = true →
       integ page.id = some (calculateHash page) →
       (processPage dryRun integ page env).upsertCalls = 0 ∧
       (processPage dryRun integ page env).outcome = PageOutcome.skippedAlreadySynced ∧
       (processPage dryRun integ page env).skippedInc = 1) ∧
    (∀ (integ : String → Option RelevantFields) (page : NotionPage) (env1 env2 : PageEnv)
       (tid : String),
       (extractProperties page).domain ≠ none →
       (extractProperties page).venture ≠ none →
       (extractProperties page).priority ≠ none →
       (extractProperties page).linked = false →
       env1.rpc = Except.ok tid → tid ≠ "" → env1.notionWriteOk = true →
       (processPage false integ page env1).upsertCalls = 1 ∧
       (processPage false
          (processPage false integ page env1).newIntegration
          (processPage false integ page env1).newPage env2).upsertCalls = 0 ∧
       (processPage false
          (processPage false integ page env1).newIntegration
          (processPage false integ page env1).newPage env2).outcome =
         PageOutcome.skippedAlreadySynced) := by
  constructor
  · intro dryRun integ page env hd hv hp hl hts hh
    rw [processPage_skip_unchanged dryRun integ page env hd hv hp hl hts hh]
    exact ⟨rfl, rfl, rfl⟩
  · intro integ page env1 env2 tid hd hv hp hnl hrpc htid hwr
    rw [processPage_fresh_success integ page env1 tid hd hv hp hnl hrpc htid hwr]
    refine ⟨rfl, ?_⟩
    have hskip := processPage_skip_unchanged false
      (fun pid => if pid = page.id then some (calculateHash page) else integ pid)
      ({ page with supabaseTaskId := some tid, linked := true }) env2
      hd hv hp rfl (by simp [extractProperties, jsOrNull, htid])
      (by simp [calculateHash])
    rw [hskip]
    exact ⟨rfl, rfl⟩

/-- C3 witness: both amended parts at concrete inputs — a linked page with a
matching stored hash is skipped with zero upsert calls, and a fresh page is
upserted once on the first pass and skipped on the second. -/
theorem c3_skip_unchanged_witness :
    ((processPage false
        (fun pid => if pid = "page-a" then some (calculateHash pageFresh) else none)
        { pageFresh with supabaseTaskId := some "task-1", linked := true }
        envRpcOk).upsertCalls = 0 ∧
     (processPage false
        (fun pid => if pid = "page-a" then some (calculateHash pageFresh) else none)
        { pageFresh with supabaseTaskId := some "task-1", linked := true }
        envRpcOk).outcome = PageOutcome.skippedAlreadySynced) ∧
    ((processPage false noIntegrationRows pageFresh envRpcOk).upsertCalls = 1 ∧
     (processPage false
        (processPage false noIntegrationRows pageFresh envRpcOk).newIntegration
        (processPage false noIntegrationRows pageFresh envRpcOk).newPage
        envRpcOk).upsertCalls = 0) := by
  constructor
  · have h := c3_skip_unchanged_amended.1 false
      (fun pid => if pid = "page-a" then some (calculateHash pageFresh) else none)
      ({ pageFresh with supabaseTaskId := some "task-1", linked := true })
      envRpcOk (by decide) (by decide) (by decide) (by decide) (by decide) (by decide)
    exact ⟨h.1, h.2.1⟩
  · have h := c3_skip_unchanged_amended.2 noIntegrationRows pageFresh envRpcOk envRpcOk
      "task-1" (by decide) (by decide) (by decide) (by decide) rfl (by decide) rfl
    exact ⟨h.1, h.2.1⟩

/-- C4: every normalization function is total and in-range — `mapStatus`
returns null or a member of the canonical status set, `mapPriority` returns
null or a member of P0..P3, and focus-slot normalization returns null or a
member of the canonical list it is looked up against (the `focus_slots` rows
together with the hard-coded fallback list, which mirrors the table's seed
content). -/
theorem c4_normalizer_totality :
    (∀ v : Option String, mapStatus v = none ∨
       mapStatus v ∈ [some "To Do", some "In Progress", some "Done", some "On Hold"]) ∧
    (∀ v : Option String, mapPriority v = none ∨
       mapPriority v ∈ [some "P0", some "P1", some "P2", some "P3"]) ∧
    (∀ (focusDb : Option (List String)) (v : Option String),
       (mapFocusSlotAsync focusDb v).result = none ∨
       ∃ s, s ∈ focusDb.getD [] ++ fallbackSlots ∧
         (mapFocusSlotAsync focusDb v).result = some s) :=
  ⟨mapStatus_total, mapPriority_total, mapFocusSlotAsync_total⟩

/-- C5: a fetched page whose extracted/normalized domain, venture or priority
is null is classified skipped-missing-field; the Upsert Gateway is never
called for it and no link-back write is attempted. -/
theorem c5_required_field_gate (dryRun : Bool) (integ : String → Option RelevantFields)
    (page : NotionPage) (env : PageEnv)
    (h : (extractProperties page).domain = none ∨ (extractProperties page).venture = none ∨
         (extractProperties page).priority = none) :
    (processPage dryRun integ page env).upsertCalls = 0 ∧
    (processPage dryRun integ page env).notionWrites = 0 ∧
    (processPage dryRun integ page env).skippedInc = 1 ∧
    ((processPage dryRun integ page env).outcome = PageOutcome.skippedMissingDomain ∨
     (processPage dryRun integ page env).outcome = PageOutcome.skippedMissingVenture ∨
     (processPage dryRun integ page env).outcome = PageOutcome.skippedMissingPriority) := by
  have hg := processPage_gate_skip dryRun integ page env h
  exact ⟨hg.1, hg.2.1, hg.2.2.2.1, hg.2.2.2.2.2.2⟩

/-- C5 witness: a page with an empty Priority select is skipped with zero
upsert calls and zero link-back writes. -/
theorem c5_required_field_gate_witness :
    (processPage false noIntegrationRows pageNoPriority envRpcOk).upsertCalls = 0 ∧
    (processPage false noIntegrationRows pageNoPriority envRpcOk).notionWrites = 0 ∧
    (processPage false noIntegrationRows pageNoPriority envRpcOk).skippedInc = 1 ∧
    ((processPage false noIntegrationRows pageNoPriority envRpcOk).outcome =
       PageOutcome.skippedMissingDomain ∨
     (processPage false noIntegrationRows pageNoPriority envRpcOk).outcome =
       PageOutcome.skippedMissingVenture ∨
     (processPage false noIntegrationRows pageNoPriority envRpcOk).outcome =
       PageOutcome.skippedMissingPriority) :=
  c5_required_field_gate false noIntegrationRows pageNoPriority envRpcOk
    (Or.inr (Or.inr (by decide)))

/-- C6: (1) an operation that fails with a retryable error on every invocation
is invoked exactly `maxAttempts` times and the last error value itself is then
thrown; (2) an invocation failing with a non-retryable error (after any prefix
of retryable failures) propagates that error immediately, with no further
attempts. -/
theorem c6_retry_bounds :
    (∀ (α : Type) (fn : Nat → Except JsError α) (errs : Nat → JsError) (maxAttempts : Nat),
       1 ≤ maxAttempts →
       (∀ i, fn i = Except.error (errs i)) →
       (∀ i, isRetryableError (errs i) = true) →
       retryWithBackoff fn maxAttempts = (maxAttempts, Except.error (errs maxAttempts))) ∧
    (∀ (α : Type) (fn : Nat → Except JsError α) (errs : Nat → JsError)
       (k maxAttempts : Nat) (e : JsError),
       1 ≤ k → k ≤ maxAttempts →
       (∀ i, 1 ≤ i → i < k →
          fn i = Except.error (errs i) ∧ isRetryableError (errs i) = true) →
       fn k = Except.error e → isRetryableError e = false →
       retryWithBackoff fn maxAttempts = (k, Except.error e)) := by
  constructor
  · intro α fn errs maxAttempts h1 hfn hret
    obtain ⟨m, rfl⟩ : ∃ m, maxAttempts = m + 1 := ⟨maxAttempts - 1, by omega⟩
    have h := retryGo_allFail fn errs (m + 1) hfn hret m 1 (by omega)
    simpa [retryWithBackoff] using h
  · intro α fn errs k maxAttempts e hk1 hkm hpre hfk hnr
    obtain ⟨m, rfl⟩ : ∃ m, maxAttempts = m + 1 := ⟨maxAttempts - 1, by omega⟩
    have h := retryGo_haltNonRetryable fn errs (m + 1) k e hk1 hkm hpre hfk hnr m 1
      (Nat.le_refl 1) hk1 (by omega)
    have harith : k - 1 + 1 = k := by omega
    rw [harith] at h
    simpa [retryWithBackoff] using h

/-- C6 witness: with `maxAttempts = 3`, an always-503 operation is invoked
exactly 3 times and the 503 error itself is thrown; a 400 error is thrown
after exactly 1 invocation. -/
theorem c6_retry_bounds_witness :
    retryWithBackoff rpcAlwaysServerError 3 = (3, Except.error ⟨some 503, none, "server"⟩) ∧
    retryWithBackoff rpcBadRequest 3 = (1, Except.error ⟨some 400, none, "bad request"⟩) :=
  ⟨c6_retry_bounds.1 Nat rpcAlwaysServerError (fun _ => ⟨some 503, none, "server"⟩) 3
     (by decide) (fun _ => rfl) (fun _ => rfl),
   c6_retry_bounds.2 Nat rpcBadRequest (fun _ => ⟨some 503, none, "server"⟩) 1 3
     ⟨some 400, none, "bad request"⟩ (by decide) (by decide)
     (fun i h1 h2 => absurd (Nat.lt_of_lt_of_le h2 h1) (Nat.lt_irrefl i))
     rfl (by decide)⟩

/-- C7: a pass over zero fetched records completes with created = skipped =
errors = 0 and no cursor write; the cursor is written iff at least one record
was fetched and dry-run mode is off, and the single value written is the
maximum `last_edited_time` over all fetched records (an upper bound that is
itself one of the fetched timestamps), regardless of per-record outcomes. -/
theorem c7_cursor_advance (dryRun : Bool) (integ : String → Option RelevantFields)
    (items : List (NotionPage × PageEnv)) :
    (items = [] →
       (syncPages dryRun integ items).created = 0 ∧
       (syncPages dryRun integ items).skipped = 0 ∧
       (syncPages dryRun integ items).errors = 0 ∧
       (syncPages dryRun integ items).cursorWrites = []) ∧
    (dryRun = true → (syncPages dryRun integ items).cursorWrites = []) ∧
    (items ≠ [] → dryRun = false →
       (syncPages dryRun integ items).cursorWrites = [maxLastEdited items] ∧
       (∀ pe ∈ items, pe.1.lastEditedTime ≤ maxLastEdited items) ∧
       maxLastEdited items ∈ items.map (fun pe => pe.1.lastEditedTime)) := by
  refine ⟨?_, ?_, ?_⟩
  · intro h; subst h; exact ⟨rfl, rfl, rfl, rfl⟩
  · intro h; subst h
    cases items with
    | nil => rfl
    | cons pe rest => simp [syncPages, runPages_cursorWrites]
  · intro hne hdr; subst hdr
    cases items with
    | nil => exact absurd rfl hne
    | cons pe rest =>
      refine ⟨by simp [syncPages], ?_, ?_⟩
      · intro x hx
        exact (foldl_max_le ((pe :: rest).map (fun q => q.1.lastEditedTime)) 0).2 _
          (List.mem_map_of_mem _ hx)
      · rcases foldl_max_mem ((pe :: rest).map (fun q => q.1.lastEditedTime)) 0 with h | h
        · exact h
        · have hhead := (foldl_max_le ((pe :: rest).map (fun q => q.1.lastEditedTime)) 0).2
            pe.1.lastEditedTime (by simp)
          have h0 : pe.1.lastEditedTime = 0 := by
            have hfold : maxLastEdited (pe :: rest) = 0 := h
            omega
          have hfold : maxLastEdited (pe :: rest) = pe.1.lastEditedTime := by
            rw [h0]; exact h
          rw [hfold]
          exact List.mem_map_of_mem _ (List.mem_cons_self _ _)

/-- C7 witness: a one-page non-dry-run pass writes the cursor once with that
page's timestamp, and an empty pass reports zero counters and no cursor
write. -/
theorem c7_cursor_advance_witness :
    (syncPages false noIntegrationRows [(pageFresh, envRpcOk)]).cursorWrites =
      [maxLastEdited [(pageFresh, envRpcOk)]] ∧
    (syncPages false noIntegrationRows ([] : List (NotionPage × PageEnv))).errors = 0 ∧
    (syncPages false noIntegrationRows ([] : List (NotionPage × PageEnv))).cursorWrites = [] :=
  ⟨((c7_cursor_advance false noIntegrationRows [(pageFresh, envRpcOk)]).2.2
      (List.cons_ne_nil _ _) rfl).1,
   ((c7_cursor_advance false noIntegrationRows []).1 rfl).2.2.1,
   ((c7_cursor_advance false noIntegrationRows []).1 rfl).2.2.2⟩

/-- C8: in dry-run mode a pass performs no external mutation of any kind —
zero Upsert Gateway RPC calls, zero Notion link-back writes, zero link-table
(`integrations_notion`) writes and zero cursor writes — for every fetched page
list and every environment, while the per-page read/decision pipeline still
runs (the gates of `processPage` are evaluated identically). -/
theorem c8_dry_run_isolation (integ : String → Option RelevantFields)
    (items : List (NotionPage × PageEnv)) :
    (syncPages true integ items).upsertCalls = 0 ∧
    (syncPages true integ items).notionWrites = 0 ∧
    (syncPages true integ items).integrationWrites = 0 ∧
    (syncPages true integ items).cursorWrites = [] := by
  cases items with
  | nil => exact ⟨rfl, rfl, rfl, rfl⟩
  | cons pe rest =>
    have h := runPages_dryRun_silent (pe :: rest) integ
    simp only [syncPages, if_true]
    exact h

/-- C9 counterexample: the DB lookup interpolates the stripped text raw into an
SQL ILIKE pattern, so LIKE wildcards inside it act as wildcards.  "A%1" has no
exact or substring match (in either direction) against the canonical list
containing "Admin Block 1", yet normalization returns "Admin Block 1" with no
warning, because `%` matches arbitrary text in the ILIKE pattern. -/
theorem c9_focus_slot_null_counterexample :
    noSlotMatch (["Admin Block 1"] ++ fallbackSlots) (strippedOf "A%1") = true ∧
    mapFocusSlotAsync (some ["Admin Block 1"]) (some "A%1") =
      ⟨some "Admin Block 1", false⟩ := by
  constructor <;> decide

/-- C9 amended: for every non-null focus-slot input whose emoji-stripped text
contains no SQL LIKE metacharacter (%, _, backslash) and matches no entry of
the canonical list (the `focus_slots` rows plus the hard-coded fallbacks) —
neither exactly nor as a case-insensitive substring in either direction —
normalization returns null (never a defaulted value) and the warning-level
"Unknown focus slot value" event is logged. -/
theorem c9_focus_slot_null_amended (focusDb : Option (List String)) (s : String)
    (hw : noLikeWildcards (jsToLower (strippedOf s)) = true)
    (hnm : noSlotMatch (focusDb.getD [] ++ fallbackSlots) (strippedOf s) = true) :
    mapFocusSlotAsync focusDb (some s) = ⟨none, true⟩ := by
  have hall := List.all_eq_true.mp hnm
  have hwall := List.all_eq_true.mp hw
  have hpct : ∀ c ∈ (jsToLower (strippedOf s)).toList, ¬c = '%' := by
    intro c hc
    have h2 := hwall c hc
    simp at h2
    exact h2.1.1
  have hund : ∀ c ∈ (jsToLower (strippedOf s)).toList, ¬c = '_' := by
    intro c hc
    have h2 := hwall c hc
    simp at h2
    exact h2.1.2
  have hmatch : ∀ t ∈ focusDb.getD [] ++ fallbackSlots,
      jsIncludes (jsToLower t) (jsToLower (strippedOf s)) = false ∧
      jsIncludes (jsToLower (strippedOf s)) (jsToLower t) = false := by
    intro t ht
    have h2 := hall t ht
    simp only [Bool.and_eq_true, Bool.not_eq_true'] at h2
    exact ⟨h2.1.1, h2.1.2⟩
  by_cases hs : s = ""
  · exfalso
    have hmem : "Morning Routine" ∈ focusDb.getD [] ++ fallbackSlots :=
      List.mem_append_right _ (by decide)
    have h2 := (hmatch "Morning Routine" hmem).1
    rw [hs] at h2
    have h3 : jsIncludes (jsToLower "Morning Routine") (jsToLower (strippedOf "")) = true := by
      decide
    rw [h3] at h2
    exact Bool.true_eq_false.mp h2
  · have hfallback : fallbackSlots.find? (fun f =>
        jsIncludes (jsToLower f) (jsToLower (strippedOf s)) ||
        jsIncludes (jsToLower (strippedOf s)) (jsToLower f)) = none := by
      rw [List.find?_eq_none]
      intro f hf
      have h2 := hmatch f (List.mem_append_right _ hf)
      simp [h2.1, h2.2]
    cases hdb : focusDb with
    | none =>
      simp [mapFocusSlotAsync, hs, hfallback]
    | some slots =>
      have hfil : slots.filter (fun slot => ilikeContains slot (strippedOf s)) = [] := by
        rw [List.filter_eq_nil_iff]
        intro slot hslot
        have hmem : slot ∈ focusDb.getD [] ++ fallbackSlots := by
          rw [hdb]
          exact List.mem_append_left _ hslot
        have h2 := (hmatch slot hmem).1
        rw [ilikeContains_no_wildcards slot (strippedOf s) hpct hund]
        simp [h2]
      simp [mapFocusSlotAsync, hs, hfil, hfallback]

/-- C9 witness: "Study Time" (the spec's own example) matches nothing in the
canonical list, normalizes to null and logs the warning. -/
theorem c9_focus_slot_null_witness :
    mapFocusSlotAsync (some fallbackSlots) (some "Study Time") = ⟨none, true⟩ :=
  c9_focus_slot_null_amended (some fallbackSlots) "Study Time" (by decide) (by decide)

/-- C10: status and priority normalization return null — not the documented
fallbacks — for null or empty input; the fallbacks ("P2", "To Do") apply to
non-empty unrecognized strings, and every non-empty input maps to a non-null
value; consequently a page whose Priority select is absent or empty is skipped
as missing a required field (never upserted with priority P2). -/
theorem c10_empty_input_null :
    mapStatus none = none ∧ mapStatus (some "") = none ∧
    mapPriority none = none ∧ mapPriority (some "") = none ∧
    mapPriority (some "not a priority") = some "P2" ∧
    mapStatus (some "not a status") = some "To Do" ∧
    (∀ s : String, s ≠ "" → (mapPriority (some s)).isSome = true) ∧
    (∀ s : String, s ≠ "" → (mapStatus (some s)).isSome = true) ∧
    (∀ (dryRun : Bool) (integ : String → Option RelevantFields) (page : NotionPage)
       (env : PageEnv), jsOrNull page.priorityName = none →
       (processPage dryRun integ page env).upsertCalls = 0 ∧
       ((processPage dryRun integ page env).outcome = PageOutcome.skippedMissingDomain ∨
        (processPage dryRun integ page env).outcome = PageOutcome.skippedMissingVenture ∨
        (processPage dryRun integ page env).outcome = PageOutcome.skippedMissingPriority)) := by
  refine ⟨rfl, by decide, rfl, by decide, by decide, by decide,
    mapPriority_nonempty_isSome, mapStatus_nonempty_isSome, ?_⟩
  intro dryRun integ page env h
  have hp : (extractProperties page).priority = none := by
    simp [extractProperties, h, mapPriority]
  have hg := processPage_gate_skip dryRun integ page env (Or.inr (Or.inr hp))
  exact ⟨hg.1, hg.2.2.2.2.2.2⟩

/-- C10 witness: concrete checks — null status maps to null, a non-empty
priority maps to a value, and a page with an empty Priority select is skipped
without an upsert. -/
theorem c10_empty_input_null_witness :
    mapStatus none = none ∧
    (mapPriority (some "P1")).isSome = true ∧
    (processPage false noIntegrationRows pageNoPriority envRpcOk).upsertCalls = 0 ∧
    ((processPage false noIntegrationRows pageNoPriority envRpcOk).outcome =
       PageOutcome.skippedMissingDomain ∨
     (processPage false noIntegrationRows pageNoPriority envRpcOk).outcome =
       PageOutcome.skippedMissingVenture ∨
     (processPage false noIntegrationRows pageNoPriority envRpcOk).outcome =
       PageOutcome.skippedMissingPriority) :=
  ⟨c10_empty_input_null.1,
   c10_empty_input_null.2.2.2.2.2.2.1 "P1" (by decide),
   (c10_empty_input_null.2.2.2.2.2.2.2.2 false noIntegrationRows pageNoPriority envRpcOk
      (by decide)).1,
   (c10_empty_input_null.2.2.2.2.2.2.2.2 false noIntegrationRows pageNoPriority envRpcOk
      (by decide)).2⟩

end QCBridge
